import Mathlib

/-!
Verification development for the MindMap 360 anchor-overlay core.

The TypeScript source is shallowly embedded: angles, zoom levels and pixel
coordinates are modelled as rationals (`ℚ`); runtime math primitives that the
code obtains from the host (`Math.tan`, `Math.atan2`, `Math.sqrt`, `Math.PI`)
are passed as explicit function parameters; fallible lookups are `Option`;
event handlers that may or may not emit an intent return the `List` of
emitted intents.
-/

/-- Application mode, from `src/types/index.ts` (`AppMode = 'view' | 'edit'`). -/
inductive AppMode where
  | view
  | edit
deriving DecidableEq

/-- Angular anchor position, from `src/types/index.ts` (`Position`). -/
structure Position where
  heading : ℚ
  pitch : ℚ
deriving DecidableEq

/-- Camera orientation state held by the Kuula viewers
(`{ heading, pitch, zoom }`). -/
structure CamOrientation where
  heading : ℚ
  pitch : ℚ
  zoom : ℚ
deriving DecidableEq

/-- First loop of the angle normalizer: `while (diff > 180) diff -= 360;`.
Both Kuula backends contain this identical loop (in `normalizeHeading` of
`KuulaViewer.tsx` and `normalizeAngle` of the linear Kuula backend). -/
def whileGt180Sub (d : ℚ) : ℚ :=
  if h : 180 < d then whileGt180Sub (d - 360) else d
termination_by (⌈(d - 180) / 360⌉).toNat
decreasing_by
  have e : (d - 360 - 180) / 360 = (d - 180) / 360 - 1 := by ring
  have hpos : (0 : ℤ) < ⌈(d - 180) / 360⌉ := by
    refine Int.ceil_pos.mpr ?_
    have : (0 : ℚ) < d - 180 := by linarith
    positivity
  rw [e, Int.ceil_sub_one]
  omega

/-- Second loop of the angle normalizer: `while (diff < -180) diff += 360;`. -/
def whileLtNeg180Add (d : ℚ) : ℚ :=
  if h : d < -180 then whileLtNeg180Add (d + 360) else d
termination_by (⌈(-180 - d) / 360⌉).toNat
decreasing_by
  have e : (-180 - (d + 360)) / 360 = (-180 - d) / 360 - 1 := by ring
  have hpos : (0 : ℤ) < ⌈(-180 - d) / 360⌉ := by
    refine Int.ceil_pos.mpr ?_
    have : (0 : ℚ) < -180 - d := by linarith
    positivity
  rw [e, Int.ceil_sub_one]
  omega

/-- `normalizeHeading` from `src/components/KuulaViewer.tsx` lines 93-97:
subtract 360 while above 180, then add 360 while below -180. -/
def KuulaViewer.normalizeHeading (diff : ℚ) : ℚ :=
  whileLtNeg180Add (whileGt180Sub diff)

/-- `normalizeAngle` from the linear Kuula backend lines 98-102; its body is
character-for-character the same two loops as `KuulaViewer.normalizeHeading`. -/
def KuulaLinear.normalizeAngle (angle : ℚ) : ℚ :=
  whileLtNeg180Add (whileGt180Sub angle)

/-- Effective field of view returned by `getEffectiveFOV`. -/
structure KuulaViewer.FOV where
  h : ℚ
  v : ℚ
deriving DecidableEq

/-- `getEffectiveFOV` from `KuulaViewer.tsx` lines 102-111:
`baseH = 90`, `baseV = 70`, `zoomFactor = 1 + zoom * 0.5`. -/
def KuulaViewer.getEffectiveFOV (o : CamOrientation) : KuulaViewer.FOV :=
  let baseH : ℚ := 90
  let baseV : ℚ := 70
  let zoomFactor : ℚ := 1 + o.zoom * (1 / 2)
  { h := baseH * zoomFactor, v := baseV * zoomFactor }

/-- `isFlashcardVisible` from `KuulaViewer.tsx` lines 114-124. -/
def KuulaViewer.isFlashcardVisible (o : CamOrientation) (pos : Position) : Bool :=
  let fov := KuulaViewer.getEffectiveFOV o
  let headingDiff := KuulaViewer.normalizeHeading (pos.heading - o.heading)
  let pitchDiff := pos.pitch - o.pitch
  let hVisible := decide (|headingDiff| < fov.h / 2 + 10)
  let vVisible := decide (|pitchDiff| < fov.v / 2 + 10)
  hVisible && vVisible

/-- `getScreenPosition` from `KuulaViewer.tsx` lines 127-148.  The host
runtime's `Math.PI` and `Math.tan` are abstracted as parameters `pi` and
`tan`; all stated properties hold for every choice of them. -/
def KuulaViewer.getScreenPosition (pi : ℚ) (tan : ℚ → ℚ)
    (o : CamOrientation) (pos : Position) : ℚ × ℚ :=
  let fov := KuulaViewer.getEffectiveFOV o
  let headingDiff := KuulaViewer.normalizeHeading (pos.heading - o.heading)
  let pitchDiff := pos.pitch - o.pitch
  let hFovRad := fov.h / 2 * (pi / 180)
  let vFovRad := fov.v / 2 * (pi / 180)
  let headingRad := headingDiff * (pi / 180)
  let pitchRad := pitchDiff * (pi / 180)
  let x := 50 + tan headingRad / tan hFovRad * 50
  let y := 50 - tan pitchRad / tan vFovRad * 50
  (max 2 (min 98 x), max 2 (min 98 y))

/-- `handleAddFlashcard` from `KuulaViewer.tsx` lines 84-90: in edit mode it
emits the current orientation's heading/pitch, otherwise nothing. -/
def KuulaViewer.handleAddFlashcard (mode : AppMode) (o : CamOrientation) :
    List Position :=
  if mode ≠ AppMode.edit then []
  else [{ heading := o.heading, pitch := o.pitch }]

/-- `handleAddFlashcard` of the linear Kuula backend lines 85-95 (same
guard and same emitted position as the perspective backend). -/
def KuulaLinear.handleAddFlashcard (mode : AppMode) (o : CamOrientation) :
    List Position :=
  if mode ≠ AppMode.edit then []
  else [{ heading := o.heading, pitch := o.pitch }]

/-- A JavaScript number as delivered by the external viewer event: a real
numeric value, `NaN`, or `undefined`. -/
inductive JsVal where
  | undef
  | nan
  | num (q : ℚ)
deriving DecidableEq

/-- An `orientation` event payload (`e.data`) from the Kuula player. -/
structure OrientationEvent where
  heading : JsVal
  pitch : JsVal
  zoom : JsVal
deriving DecidableEq

/-- The orientation state as stored by `setOrientation`; fields hold whatever
value the event carried. -/
structure OrientationState where
  heading : JsVal
  pitch : JsVal
  zoom : JsVal
deriving DecidableEq

/-- `handleOrientation` from `KuulaViewer.tsx` lines 66-72 (and identically
in the linear Kuula backend lines 67-73): it unconditionally replaces the
stored orientation with the event payload; there is no NaN/undefined check. -/
def KuulaViewer.handleOrientation (e : OrientationEvent)
    (_prev : OrientationState) : OrientationState :=
  { heading := e.heading, pitch := e.pitch, zoom := e.zoom }

/-- `getFlashcardStyle` from the linear Kuula backend lines 106-133, reduced
to the data it computes: `none` when the anchor is culled, otherwise
`some (screenX, screenY)` in CSS percent. -/
def KuulaLinear.getFlashcardStyle (o : CamOrientation) (pos : Position) :
    Option (ℚ × ℚ) :=
  let dHeading := KuulaLinear.normalizeAngle (pos.heading - o.heading)
  let dPitch := pos.pitch - o.pitch
  let visibleH : ℚ := 100 * (1 - o.zoom * (3 / 10))
  let visibleV : ℚ := 75 * (1 - o.zoom * (3 / 10))
  if |dHeading| > visibleH / 2 ∨ |dPitch| > visibleV / 2 then
    none
  else
    some (50 + dHeading / visibleH * 100, 50 - dPitch / visibleV * 100)

/-- The outcome of one mousedown/mouseup pair in the Pannellum backend
(`mousedown` handler, PannellumViewer lines 107-132): the list of add-anchor
intents it emits.  `coords` models `mouseEventToCoords(upEvent)`, whose
result array is `[pitch, yaw]`, so `c.1 = coords[0]` (pitch) and
`c.2 = coords[1]` (heading). -/
def PannellumViewer.mousedownMouseup (mode : AppMode)
    (startX startY upX upY : ℚ) (coords : Option (ℚ × ℚ)) : List Position :=
  if mode ≠ AppMode.edit then []
  else
    let dx := |upX - startX|
    let dy := |upY - startY|
    if dx < 5 ∧ dy < 5 then
      match coords with
      | some c => [{ heading := c.2, pitch := c.1 }]
      | none => []
    else []

/-- A 3D intersection point delivered by the Matterport pointer stream. -/
structure Vec3 where
  x : ℚ
  y : ℚ
  z : ℚ
deriving DecidableEq

/-- `handleAddClick` from `MatterportViewer.tsx` lines 164-172: when a hit
point exists and the mode is edit, emit the spherical approximation of the
3D point.  `Math.atan2`, `Math.sqrt` and `Math.PI` are host-runtime
primitives, abstracted as the parameters `atan2`, `sqrt` and `pi`. -/
def MatterportViewer.handleAddClick (atan2 : ℚ → ℚ → ℚ) (sqrt : ℚ → ℚ)
    (pi : ℚ) (mode : AppMode) (lastClick : Option Vec3) : List Position :=
  match lastClick with
  | none => []
  | some p =>
    if mode = AppMode.edit then
      [{ heading := atan2 p.x p.z * (180 / pi),
         pitch := atan2 p.y (sqrt (p.x ^ 2 + p.z ^ 2)) * (180 / pi) }]
    else []

/-- Modelled from the spec: the add-anchor angular approximation as §4.5
words it, `heading = atan2(x, z)`, `pitch = atan2(y, sqrt(x²+z²))`, both
converted to degrees.  Stated over the same abstract math primitives so it
can be compared with `MatterportViewer.handleAddClick`. -/
def specAnchorAngles (atan2 : ℚ → ℚ → ℚ) (sqrt : ℚ → ℚ) (pi : ℚ)
    (x y z : ℚ) : Position :=
  { heading := atan2 x z * (180 / pi),
    pitch := atan2 y (sqrt (x ^ 2 + z ^ 2)) * (180 / pi) }

/-- Tour type, from `src/types/index.ts` (`Tour['type']`). -/
inductive TourType where
  | matterport
  | kuula
  | panorama
deriving DecidableEq

/-- The character class `[a-zA-Z0-9]` of the capture groups in
`parseTourUrl`. -/
def isAlnum (c : Char) : Bool :=
  ('a' ≤ c && c ≤ 'z') || ('A' ≤ c && c ≤ 'Z') || ('0' ≤ c && c ≤ '9')

/-- Literal-prefix test on character lists (the anchored part of each regex
in `parseTourUrl`). -/
def litPrefixOf : List Char → List Char → Bool
  | [], _ => true
  | _ :: _, [] => false
  | a :: as, b :: bs => if a = b then litPrefixOf as bs else false

/-- Greedy capture of `([a-zA-Z0-9]+)`: succeeds only when the first
character is alphanumeric, and then takes the maximal alphanumeric run. -/
def capturePlus : List Char → Option (List Char)
  | [] => none
  | d :: t => if isAlnum d then some ((d :: t).takeWhile isAlnum) else none

/-- One backtracking step of `=([a-zA-Z0-9]+)` after an `m` was seen. -/
def captureEq : List Char → Option (List Char)
  | [] => none
  | c :: t => if c = '=' then capturePlus t else none

/-- The `.*m=([a-zA-Z0-9]+)` part of the Matterport regex: with a greedy
`.*`, JavaScript backtracking selects the LAST position at which
`m=[a-zA-Z0-9]+` succeeds, so later matches take priority. -/
def lastMCapture : List Char → Option (List Char)
  | [] => none
  | c :: rest =>
    match lastMCapture rest with
    | some r => some r
    | none => if c = 'm' then captureEq rest else none

/-- Leftmost-match scan of `String.prototype.match`: try the pattern at each
start position from the left, returning the first success. -/
def scanWith (attempt : List Char → Option (List Char)) :
    List Char → Option (List Char)
  | [] => attempt []
  | c :: rest =>
    match attempt (c :: rest) with
    | some r => some r
    | none => scanWith attempt rest

/-- Anchored attempt of `/matterport\.com\/show\?.*m=([a-zA-Z0-9]+)/` at one
start position. -/
def tryMP (s : List Char) : Option (List Char) :=
  if litPrefixOf "matterport.com/show?".data s then
    lastMCapture (s.drop "matterport.com/show?".data.length)
  else none

/-- Anchored attempt of `/kuula\.co\/share\/collection\/([a-zA-Z0-9]+)/`. -/
def tryKC (s : List Char) : Option (List Char) :=
  if litPrefixOf "kuula.co/share/collection/".data s then
    capturePlus (s.drop "kuula.co/share/collection/".data.length)
  else none

/-- Anchored attempt of `/kuula\.co\/share\/([a-zA-Z0-9]+)/`. -/
def tryKP (s : List Char) : Option (List Char) :=
  if litPrefixOf "kuula.co/share/".data s then
    capturePlus (s.drop "kuula.co/share/".data.length)
  else none

/-- `parseTourUrl` from `src/types/index.ts` lines 47-67: try the Matterport
regex, then the Kuula collection regex, then the Kuula single-post regex,
returning the first capture with its tour type. -/
def parseTourUrl (url : List Char) : Option (TourType × List Char) :=
  match scanWith tryMP url with
  | some id => some (TourType.matterport, id)
  | none =>
    match scanWith tryKC url with
    | some id => some (TourType.kuula, id)
    | none =>
      match scanWith tryKP url with
      | some id => some (TourType.kuula, id)
      | none => none

/-- `createEmbedUrl` from `src/types/index.ts` lines 70-76: Matterport gets
a `show?m=` URL; every other type gets a Kuula collection URL. -/
def createEmbedUrl (t : TourType) (tourId : List Char) : List Char :=
  match t with
  | TourType.matterport =>
    "https://my.matterport.com/show?m=".data ++ tourId ++ "&play=1&qs=1".data
  | _ =>
    "https://kuula.co/share/collection/".data ++ tourId
      ++ "?logo=1&info=1&fs=1&vr=0&sd=1&thumbs=1".data

theorem whileGt180Sub_le (d : ℚ) : whileGt180Sub d ≤ 180 := by
  induction d using whileGt180Sub.induct with
  | case1 x hx ih => rw [whileGt180Sub, dif_pos hx]; exact ih
  | case2 x hx => rw [whileGt180Sub, dif_neg hx]; linarith [not_lt.mp hx]

theorem whileGt180Sub_ge (d : ℚ) : -180 ≤ d → -180 ≤ whileGt180Sub d := by
  induction d using whileGt180Sub.induct with
  | case1 x hx ih =>
    intro _
    rw [whileGt180Sub, dif_pos hx]
    exact ih (by linarith)
  | case2 x hx => intro h; rwa [whileGt180Sub, dif_neg hx]

theorem whileGt180Sub_congr (d : ℚ) : ∃ k : ℤ, whileGt180Sub d = d + 360 * k := by
  induction d using whileGt180Sub.induct with
  | case1 x hx ih =>
    obtain ⟨k, hk⟩ := ih
    refine ⟨k - 1, ?_⟩
    rw [whileGt180Sub, dif_pos hx, hk]
    push_cast
    ring
  | case2 x hx => exact ⟨0, by rw [whileGt180Sub, dif_neg hx]; norm_num⟩

theorem whileLtNeg180Add_ge (d : ℚ) : -180 ≤ whileLtNeg180Add d := by
  induction d using whileLtNeg180Add.induct with
  | case1 x hx ih => rw [whileLtNeg180Add, dif_pos hx]; exact ih
  | case2 x hx => rw [whileLtNeg180Add, dif_neg hx]; linarith [not_lt.mp hx]

theorem whileLtNeg180Add_le (d : ℚ) : d ≤ 180 → whileLtNeg180Add d ≤ 180 := by
  induction d using whileLtNeg180Add.induct with
  | case1 x hx ih =>
    intro _
    rw [whileLtNeg180Add, dif_pos hx]
    exact ih (by linarith)
  | case2 x hx => intro h; rwa [whileLtNeg180Add, dif_neg hx]

theorem whileLtNeg180Add_congr (d : ℚ) :
    ∃ k : ℤ, whileLtNeg180Add d = d + 360 * k := by
  induction d using whileLtNeg180Add.induct with
  | case1 x hx ih =>
    obtain ⟨k, hk⟩ := ih
    refine ⟨k + 1, ?_⟩
    rw [whileLtNeg180Add, dif_pos hx, hk]
    push_cast
    ring
  | case2 x hx => exact ⟨0, by rw [whileLtNeg180Add, dif_neg hx]; norm_num⟩

theorem normalizeHeading_mem (d : ℚ) :
    -180 ≤ KuulaViewer.normalizeHeading d ∧ KuulaViewer.normalizeHeading d ≤ 180 :=
  ⟨whileLtNeg180Add_ge _, whileLtNeg180Add_le _ (whileGt180Sub_le d)⟩

theorem normalizeHeading_congr (d : ℚ) :
    ∃ k : ℤ, KuulaViewer.normalizeHeading d = d + 360 * k := by
  obtain ⟨k₁, h₁⟩ := whileGt180Sub_congr d
  obtain ⟨k₂, h₂⟩ := whileLtNeg180Add_congr (whileGt180Sub d)
  refine ⟨k₁ + k₂, ?_⟩
  rw [KuulaViewer.normalizeHeading, h₂, h₁]
  push_cast
  ring

theorem normalizeHeading_of_mem (d : ℚ) (h₁ : -180 ≤ d) (h₂ : d ≤ 180) :
    KuulaViewer.normalizeHeading d = d := by
  rw [KuulaViewer.normalizeHeading, whileGt180Sub, dif_neg (not_lt.mpr h₂),
    whileLtNeg180Add, dif_neg (not_lt.mpr h₁)]

/-- C1, counterexample: the claim asserts the normalized result lies in the
half-open interval `(-180, 180]`, but the loops stop as soon as the value is
at least `-180`, so the input `-540` (congruent to `180` modulo `360`)
normalizes to `-180` itself, which is outside `(-180, 180]`.  The linear
backend's `normalizeAngle` does the same. -/
theorem C1_normalize_cex :
    KuulaViewer.normalizeHeading (-540) = -180 ∧
      KuulaLinear.normalizeAngle (-540) = -180 ∧
      ¬ (-180 < KuulaViewer.normalizeHeading (-540)) := by
  have h : KuulaViewer.normalizeHeading (-540) = -180 := by
    rw [KuulaViewer.normalizeHeading]
    rw [whileGt180Sub, dif_neg (by norm_num)]
    rw [whileLtNeg180Add, dif_pos (by norm_num)]
    rw [whileLtNeg180Add, dif_neg (by norm_num)]
    norm_num
  exact ⟨h, h, by rw [h]; norm_num⟩

/-- C1, amended: for every rational delta `d` the heading-difference
normalizer (`normalizeHeading` in the perspective Kuula backend, and the
identical `normalizeAngle` in the linear Kuula backend) terminates (it is a
total function here) and returns a result in the CLOSED interval
`[-180, 180]` that is congruent to `d` modulo 360. -/
theorem C1_normalize_amended (d : ℚ) :
    (-180 ≤ KuulaViewer.normalizeHeading d ∧ KuulaViewer.normalizeHeading d ≤ 180 ∧
      ∃ k : ℤ, KuulaViewer.normalizeHeading d = d + 360 * k) ∧
      KuulaLinear.normalizeAngle d = KuulaViewer.normalizeHeading d := by
  obtain ⟨h₁, h₂⟩ := normalizeHeading_mem d
  exact ⟨⟨h₁, h₂, normalizeHeading_congr d⟩, rfl⟩

/-- C2: in the perspective Kuula backend, `isFlashcardVisible` returns true
exactly when the normalized heading delta is within `fov.h/2 + 10` and the
raw pitch delta is within `fov.v/2 + 10`, with `fov.h = 90*(1 + 0.5*zoom)`
and `fov.v = 70*(1 + 0.5*zoom)`. -/
theorem C2_visible_iff (o : CamOrientation) (pos : Position) :
    KuulaViewer.isFlashcardVisible o pos = true ↔
      (|KuulaViewer.normalizeHeading (pos.heading - o.heading)| <
          90 * (1 + 0.5 * o.zoom) / 2 + 10 ∧
        |pos.pitch - o.pitch| < 70 * (1 + 0.5 * o.zoom) / 2 + 10) := by
  simp only [KuulaViewer.isFlashcardVisible, KuulaViewer.getEffectiveFOV,
    Bool.and_eq_true, decide_eq_true_eq]
  constructor
  · rintro ⟨h₁, h₂⟩
    constructor <;> [nlinarith; nlinarith]
  · rintro ⟨h₁, h₂⟩
    constructor <;> [nlinarith; nlinarith]

theorem normalizeAngle_eq_normalizeHeading (d : ℚ) :
    KuulaLinear.normalizeAngle d = KuulaViewer.normalizeHeading d := rfl

theorem getFlashcardStyle_concrete :
    KuulaLinear.getFlashcardStyle ⟨0, 0, 0⟩ ⟨45, 0⟩ = some (95, 50) := by
  have h45 : KuulaLinear.normalizeAngle
      ((⟨45, 0⟩ : Position).heading - (⟨0, 0, 0⟩ : CamOrientation).heading) = 45 := by
    rw [normalizeAngle_eq_normalizeHeading,
      show ((⟨45, 0⟩ : Position).heading - (⟨0, 0, 0⟩ : CamOrientation).heading) = (45 : ℚ)
        from by norm_num]
    exact normalizeHeading_of_mem 45 (by norm_num) (by norm_num)
  simp only [KuulaLinear.getFlashcardStyle, h45]
  norm_num

/-- C3: in the linear Kuula backend, every non-culled anchor is placed at
`screenX = 50 + (headingDelta / visibleH) * 100` and
`screenY = 50 - (pitchDelta / visibleV) * 100` with
`visibleH = 100*(1 - 0.3*zoom)` and `visibleV = 75*(1 - 0.3*zoom)`; in
particular, orientation `{heading 0, pitch 0, zoom 0}` with an anchor at
`{heading 45, pitch 0}` is visible and placed at `(95, 50)`. -/
theorem C3_linear_style :
    (∀ (o : CamOrientation) (pos : Position) (x y : ℚ),
        KuulaLinear.getFlashcardStyle o pos = some (x, y) →
          x = 50 + KuulaLinear.normalizeAngle (pos.heading - o.heading) /
                (100 * (1 - 0.3 * o.zoom)) * 100 ∧
            y = 50 - (pos.pitch - o.pitch) / (75 * (1 - 0.3 * o.zoom)) * 100) ∧
      KuulaLinear.getFlashcardStyle ⟨0, 0, 0⟩ ⟨45, 0⟩ = some (95, 50) := by
  refine ⟨?_, getFlashcardStyle_concrete⟩
  intro o pos x y h
  simp only [KuulaLinear.getFlashcardStyle] at h
  split at h
  · exact absurd h (by simp)
  · simp only [Option.some.injEq, Prod.mk.injEq] at h
    obtain ⟨hx, hy⟩ := h
    constructor
    · rw [← hx]
      norm_num
      ring_nf
    · rw [← hy]
      norm_num
      ring_nf

theorem C3_linear_style_witness :
    (95 : ℚ) = 50 + KuulaLinear.normalizeAngle ((45 : ℚ) - 0) /
        (100 * (1 - 0.3 * 0)) * 100 ∧
      (50 : ℚ) = 50 - ((0 : ℚ) - 0) / (75 * (1 - 0.3 * 0)) * 100 :=
  C3_linear_style.1 ⟨0, 0, 0⟩ ⟨45, 0⟩ 95 50 C3_linear_style.2

/-- C4: the perspective backend's `getScreenPosition` always lands in
`[2, 98]` on both axes — for every orientation and anchor (in particular
every anchor the margin lets through the visibility test), and for every
behaviour of the runtime's `Math.tan`/`Math.PI`, because both coordinates
are clamped with `max 2 (min 98 ·)`. -/
theorem C4_screen_clamped (pi : ℚ) (tan : ℚ → ℚ) (o : CamOrientation)
    (pos : Position) :
    2 ≤ (KuulaViewer.getScreenPosition pi tan o pos).1 ∧
      (KuulaViewer.getScreenPosition pi tan o pos).1 ≤ 98 ∧
      2 ≤ (KuulaViewer.getScreenPosition pi tan o pos).2 ∧
      (KuulaViewer.getScreenPosition pi tan o pos).2 ≤ 98 := by
  simp only [KuulaViewer.getScreenPosition]
  exact ⟨le_max_left _ _, max_le (by norm_num) (min_le_left _ _),
    le_max_left _ _, max_le (by norm_num) (min_le_left _ _)⟩

/-- C5: contrary to the claim, `handleOrientation` performs no NaN/undefined
check — it stores the event payload wholesale, so an event with a NaN
heading replaces the last-known-good orientation instead of being
skipped. -/
theorem C5_nan_not_skipped :
    KuulaViewer.handleOrientation
        { heading := JsVal.nan, pitch := JsVal.num 0, zoom := JsVal.num 0 }
        { heading := JsVal.num 1, pitch := JsVal.num 2, zoom := JsVal.num 0 } =
      { heading := JsVal.nan, pitch := JsVal.num 0, zoom := JsVal.num 0 } ∧
      KuulaViewer.handleOrientation
          { heading := JsVal.nan, pitch := JsVal.num 0, zoom := JsVal.num 0 }
          { heading := JsVal.num 1, pitch := JsVal.num 2, zoom := JsVal.num 0 } ≠
        { heading := JsVal.num 1, pitch := JsVal.num 2, zoom := JsVal.num 0 } := by
  refine ⟨rfl, fun h => ?_⟩
  exact absurd (congrArg OrientationState.heading h)
    (by simp [KuulaViewer.handleOrientation])

/-- C9: in the linear Kuula backend with zoom in `[-1, 1]`, every anchor
that survives the visibility check is mapped to screen coordinates within
`[0, 100]` percent on both axes, even though no clamping is applied. -/
theorem C9_linear_in_bounds (o : CamOrientation) (pos : Position) (x y : ℚ)
    (hz₁ : -1 ≤ o.zoom) (hz₂ : o.zoom ≤ 1)
    (h : KuulaLinear.getFlashcardStyle o pos = some (x, y)) :
    0 ≤ x ∧ x ≤ 100 ∧ 0 ≤ y ∧ y ≤ 100 := by
  simp only [KuulaLinear.getFlashcardStyle] at h
  split at h
  · exact absurd h (by simp)
  · next hc =>
    push_neg at hc
    obtain ⟨hH, hP⟩ := hc
    simp only [Option.some.injEq, Prod.mk.injEq] at h
    obtain ⟨hx, hy⟩ := h
    have hvH : (0 : ℚ) < 100 * (1 - o.zoom * (3 / 10)) := by nlinarith
    have hvV : (0 : ℚ) < 75 * (1 - o.zoom * (3 / 10)) := by nlinarith
    have habsH := abs_le.mp hH
    have habsP := abs_le.mp hP
    have h₁ : KuulaLinear.normalizeAngle (pos.heading - o.heading) /
        (100 * (1 - o.zoom * (3 / 10))) ≤ 1 / 2 := by
      rw [div_le_iff hvH]
      linarith [habsH.2]
    have h₂ : -(1 / 2) ≤ KuulaLinear.normalizeAngle (pos.heading - o.heading) /
        (100 * (1 - o.zoom * (3 / 10))) := by
      rw [le_div_iff hvH]
      linarith [habsH.1]
    have h₃ : (pos.pitch - o.pitch) / (75 * (1 - o.zoom * (3 / 10))) ≤ 1 / 2 := by
      rw [div_le_iff hvV]
      linarith [habsP.2]
    have h₄ : -(1 / 2) ≤ (pos.pitch - o.pitch) / (75 * (1 - o.zoom * (3 / 10))) := by
      rw [le_div_iff hvV]
      linarith [habsP.1]
    subst hx
    subst hy
    exact ⟨by linarith, by linarith, by linarith, by linarith⟩

theorem C9_linear_in_bounds_witness :
    ((-1 : ℚ) ≤ 0 ∧ (0 : ℚ) ≤ 1) ∧
      (0 ≤ (95 : ℚ) ∧ (95 : ℚ) ≤ 100 ∧ 0 ≤ (50 : ℚ) ∧ (50 : ℚ) ≤ 100) :=
  ⟨⟨by norm_num, by norm_num⟩,
    C9_linear_in_bounds ⟨0, 0, 0⟩ ⟨45, 0⟩ 95 50 (show (-1 : ℚ) ≤ 0 by norm_num)
      (show (0 : ℚ) ≤ 1 by norm_num) getFlashcardStyle_concrete⟩

/-- C6: in the Pannellum backend in edit mode, a mousedown/mouseup pair with
absolute displacement strictly below 5 pixels on both axes emits exactly one
add-anchor intent at the clicked coordinates (`heading = coords[1]`,
`pitch = coords[0]`); a pair with displacement of 5 pixels or more on either
axis emits nothing. -/
theorem C6_click_vs_drag (startX startY upX upY p q : ℚ) :
    (|upX - startX| < 5 → |upY - startY| < 5 →
        PannellumViewer.mousedownMouseup AppMode.edit startX startY upX upY
            (some (p, q)) = [{ heading := q, pitch := p }]) ∧
      (∀ coords : Option (ℚ × ℚ), 5 ≤ |upX - startX| ∨ 5 ≤ |upY - startY| →
        PannellumViewer.mousedownMouseup AppMode.edit startX startY upX upY
            coords = []) := by
  constructor
  · intro h₁ h₂
    simp [PannellumViewer.mousedownMouseup, h₁, h₂]
  · intro coords hge
    simp only [PannellumViewer.mousedownMouseup, ne_eq, not_true_eq_false,
      if_false, ite_eq_right_iff]
    intro hlt
    rcases hge with hge | hge
    · exact absurd hlt.1 (not_lt.mpr hge)
    · exact absurd hlt.2 (not_lt.mpr hge)

theorem C6_click_vs_drag_witness :
    ((|(1 : ℚ) - 0| < 5 ∧ |(1 : ℚ) - 0| < 5) ∧
        PannellumViewer.mousedownMouseup AppMode.edit 0 0 1 1 (some (10, 20)) =
          [{ heading := 20, pitch := 10 }]) ∧
      ((5 ≤ |(7 : ℚ) - 0| ∨ 5 ≤ |(0 : ℚ) - 0|) ∧
        PannellumViewer.mousedownMouseup AppMode.edit 0 0 7 0 (some (10, 20)) = []) := by
  constructor
  · exact ⟨⟨by norm_num, by norm_num⟩,
      (C6_click_vs_drag 0 0 1 1 10 20).1 (by norm_num) (by norm_num)⟩
  · refine ⟨Or.inl (by norm_num), ?_⟩
    exact (C6_click_vs_drag 0 0 7 0 10 20).2 (some (10, 20)) (Or.inl (by norm_num))

/-- C7: in view mode no backend ever emits an add-flashcard intent: both
Kuula handlers return nothing when mode is not edit, the Pannellum
mousedown/mouseup pair emits nothing in view mode, and the Matterport
handler emits nothing in view mode and nothing without a hit point in any
mode. -/
theorem C7_no_add_in_view_mode :
    (∀ o : CamOrientation, KuulaViewer.handleAddFlashcard AppMode.view o = []) ∧
      (∀ o : CamOrientation, KuulaLinear.handleAddFlashcard AppMode.view o = []) ∧
      (∀ (sx sy ux uy : ℚ) (coords : Option (ℚ × ℚ)),
        PannellumViewer.mousedownMouseup AppMode.view sx sy ux uy coords = []) ∧
      (∀ (atan2 : ℚ → ℚ → ℚ) (sqrt : ℚ → ℚ) (pi : ℚ) (lastClick : Option Vec3),
        MatterportViewer.handleAddClick atan2 sqrt pi AppMode.view lastClick = []) ∧
      (∀ (atan2 : ℚ → ℚ → ℚ) (sqrt : ℚ → ℚ) (pi : ℚ) (mode : AppMode),
        MatterportViewer.handleAddClick atan2 sqrt pi mode none = []) := by
  refine ⟨fun o => rfl, fun o => rfl, fun sx sy ux uy coords => rfl,
    fun atan2 sqrt pi lastClick => ?_, fun atan2 sqrt pi mode => rfl⟩
  cases lastClick with
  | none => rfl
  | some v => rfl

/-- C8: in the Matterport backend, adding a flashcard from a 3D hit point
`(x, y, z)` in edit mode emits exactly the spec formula
`heading = atan2(x, z) * 180/pi`, `pitch = atan2(y, sqrt(x^2 + z^2)) * 180/pi`,
for every behaviour of the runtime's `Math.atan2`, `Math.sqrt`, `Math.PI`. -/
theorem C8_matterport_angles (atan2 : ℚ → ℚ → ℚ) (sqrt : ℚ → ℚ) (pi : ℚ)
    (v : Vec3) :
    MatterportViewer.handleAddClick atan2 sqrt pi AppMode.edit (some v) =
      [specAnchorAngles atan2 sqrt pi v.x v.y v.z] := rfl

theorem litPrefixOf_append_self (p t : List Char) :
    litPrefixOf p (p ++ t) = true := by
  induction p with
  | nil => rfl
  | cons a as ih => simpa [litPrefixOf] using ih

theorem litPrefixOf_ex {p s : List Char} (h : litPrefixOf p s = true) :
    ∃ t, s = p ++ t := by
  induction p generalizing s with
  | nil => exact ⟨s, rfl⟩
  | cons a as ih =>
    cases s with
    | nil => simp [litPrefixOf] at h
    | cons b bs =>
      rw [litPrefixOf] at h
      by_cases hab : a = b
      · rw [if_pos hab] at h
        obtain ⟨t, ht⟩ := ih h
        exact ⟨t, by rw [ht, hab]; rfl⟩
      · rw [if_neg hab] at h
        exact absurd h (by simp)

theorem scanWith_hit (attempt : List Char → Option (List Char))
    (s : List Char) (r : List Char) (hne : s ≠ [])
    (h : attempt s = some r) : scanWith attempt s = some r := by
  cases s with
  | nil => exact absurd rfl hne
  | cons c rest =>
    rw [scanWith, h]

theorem scanWith_append_skip (attempt : List Char → Option (List Char))
    (s t : List Char) (h : ∀ c ∈ s, ∀ rest, attempt (c :: rest) = none) :
    scanWith attempt (s ++ t) = scanWith attempt t := by
  induction s with
  | nil => rfl
  | cons c s' ih =>
    rw [List.cons_append, scanWith, h c (List.mem_cons_self c s') (s' ++ t)]
    exact ih (fun d hd rest => h d (List.mem_cons_of_mem c hd) rest)

theorem scanWith_eq_none (attempt : List Char → Option (List Char))
    (s : List Char) (h : ∀ s₁ s₂, s = s₁ ++ s₂ → attempt s₂ = none) :
    scanWith attempt s = none := by
  induction s with
  | nil => exact h [] [] rfl
  | cons c s' ih =>
    rw [scanWith, h [] (c :: s') rfl]
    exact ih (fun s₁ s₂ hs => h (c :: s₁) s₂ (by rw [List.cons_append, hs]))

theorem takeWhile_alnum_append (id : List Char) (t₀ : Char) (ts : List Char)
    (hal : ∀ c ∈ id, isAlnum c = true) (ht : isAlnum t₀ = false) :
    (id ++ t₀ :: ts).takeWhile isAlnum = id := by
  induction id with
  | nil => simp [List.takeWhile, ht]
  | cons d id' ih =>
    rw [List.cons_append, List.takeWhile]
    rw [hal d (List.mem_cons_self d id')]
    rw [ih (fun c hc => hal c (List.mem_cons_of_mem d hc))]

theorem capturePlus_alnum_append (id : List Char) (t₀ : Char) (ts : List Char)
    (hne : id ≠ []) (hal : ∀ c ∈ id, isAlnum c = true)
    (ht : isAlnum t₀ = false) :
    capturePlus (id ++ t₀ :: ts) = some id := by
  cases id with
  | nil => exact absurd rfl hne
  | cons d id' =>
    rw [List.cons_append, capturePlus, if_pos (hal d (List.mem_cons_self d id')),
      ← List.cons_append]
    rw [takeWhile_alnum_append _ _ _ hal ht]

theorem tryMP_none_of_head (c : Char) (rest : List Char) (hc : c ≠ 'm') :
    tryMP (c :: rest) = none := by
  have hlit : litPrefixOf "matterport.com/show?".data (c :: rest) = false := by
    rw [show litPrefixOf "matterport.com/show?".data (c :: rest) =
        (if 'm' = c then litPrefixOf "atterport.com/show?".data rest else false)
      from rfl, if_neg (fun h => hc h.symm)]
  rw [tryMP, hlit]
  rfl

theorem tryKC_none_of_head (c : Char) (rest : List Char) (hc : c ≠ 'k') :
    tryKC (c :: rest) = none := by
  have hlit : litPrefixOf "kuula.co/share/collection/".data (c :: rest) = false := by
    rw [show litPrefixOf "kuula.co/share/collection/".data (c :: rest) =
        (if 'k' = c then litPrefixOf "uula.co/share/collection/".data rest else false)
      from rfl, if_neg (fun h => hc h.symm)]
  rw [tryKC, hlit]
  rfl

theorem tryMP_none_of_no_dot (s : List Char) (hdot : ('.' : Char) ∉ s) :
    tryMP s = none := by
  rw [tryMP]
  by_cases hp : litPrefixOf "matterport.com/show?".data s = true
  · obtain ⟨t, ht⟩ := litPrefixOf_ex hp
    exact absurd (ht ▸ List.mem_append_left t
      (show ('.' : Char) ∈ "matterport.com/show?".data by decide)) hdot
  · rw [if_neg hp]

theorem tryMP_key (X : List Char) :
    tryMP ("matterport.com/show?".data ++ X) = lastMCapture X := by
  rw [tryMP, if_pos (litPrefixOf_append_self _ _), List.drop_left]

theorem tryKC_key (X : List Char) :
    tryKC ("kuula.co/share/collection/".data ++ X) = capturePlus X := by
  rw [tryKC, if_pos (litPrefixOf_append_self _ _), List.drop_left]

theorem lastMCapture_alnum_tail (id : List Char)
    (hal : ∀ c ∈ id, isAlnum c = true) :
    lastMCapture (id ++ "&play=1&qs=1".data) = none := by
  induction id with
  | nil => decide
  | cons c id' ih =>
    rw [List.cons_append, lastMCapture,
      ih (fun d hd => hal d (List.mem_cons_of_mem c hd))]
    by_cases hc : c = 'm'
    · rw [if_pos hc]
      cases id' with
      | nil => decide
      | cons c' id'' =>
        rw [List.cons_append, captureEq, if_neg]
        intro he
        have := hal c' (by simp)
        rw [he] at this
        exact absurd this (by decide)
    · rw [if_neg hc]

theorem lastMCapture_full (id : List Char) (hne : id ≠ [])
    (hal : ∀ c ∈ id, isAlnum c = true) :
    lastMCapture ('m' :: '=' :: (id ++ "&play=1&qs=1".data)) = some id := by
  have h₂ : lastMCapture ('=' :: (id ++ "&play=1&qs=1".data)) = none := by
    rw [lastMCapture, lastMCapture_alnum_tail id hal, if_neg (by decide)]
  rw [lastMCapture, h₂, if_pos rfl, captureEq, if_pos rfl]
  have htail : id ++ "&play=1&qs=1".data = id ++ '&' :: "play=1&qs=1".data := rfl
  rw [htail]
  exact capturePlus_alnum_append id '&' _ hne hal (by decide)

theorem scanWith_miss (attempt : List Char → Option (List Char)) (c : Char)
    (rest : List Char) (h : attempt (c :: rest) = none) :
    scanWith attempt (c :: rest) = scanWith attempt rest := by
  rw [scanWith, h]

theorem scanMP_matterport_url (id : List Char) (hne : id ≠ [])
    (hal : ∀ c ∈ id, isAlnum c = true) :
    scanWith tryMP ("https://my.matterport.com/show?m=".data ++ id ++
      "&play=1&qs=1".data) = some id := by
  have hsplit : "https://my.matterport.com/show?m=".data ++ id ++
      "&play=1&qs=1".data =
      "https://".data ++ ('m' :: 'y' :: '.' :: ("matterport.com/show?".data ++
        ('m' :: '=' :: (id ++ "&play=1&qs=1".data)))) := rfl
  rw [hsplit]
  have hnom : ∀ c ∈ "https://".data, c ≠ 'm' := by decide
  rw [scanWith_append_skip tryMP "https://".data _
    (fun c hc rest => tryMP_none_of_head c rest (hnom c hc))]
  have e1 : tryMP ('m' :: 'y' :: '.' :: ("matterport.com/show?".data ++
      ('m' :: '=' :: (id ++ "&play=1&qs=1".data)))) = none := rfl
  have e2 : tryMP ('y' :: '.' :: ("matterport.com/show?".data ++
      ('m' :: '=' :: (id ++ "&play=1&qs=1".data)))) = none :=
    tryMP_none_of_head _ _ (by decide)
  have e3 : tryMP ('.' :: ("matterport.com/show?".data ++
      ('m' :: '=' :: (id ++ "&play=1&qs=1".data)))) = none :=
    tryMP_none_of_head _ _ (by decide)
  rw [scanWith_miss _ _ _ e1, scanWith_miss _ _ _ e2, scanWith_miss _ _ _ e3]
  exact scanWith_hit tryMP _ id (List.cons_ne_nil _ _)
    (by rw [tryMP_key]; exact lastMCapture_full id hne hal)

theorem scanMP_kuula_url_none (id : List Char)
    (hal : ∀ c ∈ id, isAlnum c = true) :
    scanWith tryMP ("https://kuula.co/share/collection/".data ++
      (id ++ "?logo=1&info=1&fs=1&vr=0&sd=1&thumbs=1".data)) = none := by
  have hnom : ∀ c ∈ "https://kuula.co/share/collection/".data, c ≠ 'm' := by
    decide
  rw [scanWith_append_skip tryMP _ _
    (fun c hc rest => tryMP_none_of_head c rest (hnom c hc))]
  apply scanWith_eq_none
  intro s₁ s₂ hs
  apply tryMP_none_of_no_dot
  intro hdot
  have hmem : ('.' : Char) ∈ id ++ "?logo=1&info=1&fs=1&vr=0&sd=1&thumbs=1".data := by
    rw [hs]
    exact List.mem_append_right s₁ hdot
  rcases List.mem_append.mp hmem with hmem | hmem
  · exact absurd (hal '.' hmem) (by decide)
  · exact absurd hmem (by decide)

theorem scanKC_kuula_url (id : List Char) (hne : id ≠ [])
    (hal : ∀ c ∈ id, isAlnum c = true) :
    scanWith tryKC ("https://kuula.co/share/collection/".data ++
      (id ++ "?logo=1&info=1&fs=1&vr=0&sd=1&thumbs=1".data)) = some id := by
  have hsplit : "https://kuula.co/share/collection/".data ++
      (id ++ "?logo=1&info=1&fs=1&vr=0&sd=1&thumbs=1".data) =
      "https://".data ++ ("kuula.co/share/collection/".data ++
        (id ++ "?logo=1&info=1&fs=1&vr=0&sd=1&thumbs=1".data)) := rfl
  rw [hsplit]
  have hnok : ∀ c ∈ "https://".data, c ≠ 'k' := by decide
  rw [scanWith_append_skip tryKC _ _
    (fun c hc rest => tryKC_none_of_head c rest (hnok c hc))]
  refine scanWith_hit tryKC _ id (List.cons_ne_nil _ _) ?_
  rw [tryKC_key]
  rw [show id ++ "?logo=1&info=1&fs=1&vr=0&sd=1&thumbs=1".data =
      id ++ '?' :: "logo=1&info=1&fs=1&vr=0&sd=1&thumbs=1".data from rfl]
  exact capturePlus_alnum_append id '?' _ hne hal (by decide)

/-- C10: `parseTourUrl` is a left inverse of `createEmbedUrl` for the
matterport and kuula types, and the panorama round trip reports kuula, for
every non-empty alphanumeric tour id. -/
theorem C10_parse_create_roundtrip (id : List Char) (hne : id ≠ [])
    (hal : ∀ c ∈ id, isAlnum c = true) :
    parseTourUrl (createEmbedUrl TourType.matterport id) =
        some (TourType.matterport, id) ∧
      parseTourUrl (createEmbedUrl TourType.kuula id) =
        some (TourType.kuula, id) ∧
      parseTourUrl (createEmbedUrl TourType.panorama id) =
        some (TourType.kuula, id) := by
  have hkuula : parseTourUrl ("https://kuula.co/share/collection/".data ++ id ++
      "?logo=1&info=1&fs=1&vr=0&sd=1&thumbs=1".data) = some (TourType.kuula, id) := by
    simp only [parseTourUrl]
    rw [List.append_assoc]
    rw [scanMP_kuula_url_none id hal]
    rw [scanKC_kuula_url id hne hal]
  refine ⟨?_, hkuula, hkuula⟩
  show parseTourUrl ("https://my.matterport.com/show?m=".data ++ id ++
    "&play=1&qs=1".data) = some (TourType.matterport, id)
  simp only [parseTourUrl]
  rw [scanMP_matterport_url id hne hal]

theorem C10_parse_create_roundtrip_witness :
    ("7KmDm".data ≠ [] ∧ (∀ c ∈ "7KmDm".data, isAlnum c = true)) ∧
      (parseTourUrl (createEmbedUrl TourType.matterport "7KmDm".data) =
          some (TourType.matterport, "7KmDm".data) ∧
        parseTourUrl (createEmbedUrl TourType.kuula "7KmDm".data) =
          some (TourType.kuula, "7KmDm".data) ∧
        parseTourUrl (createEmbedUrl TourType.panorama "7KmDm".data) =
          some (TourType.kuula, "7KmDm".data)) :=
  ⟨⟨by decide, by decide⟩,
    C10_parse_create_roundtrip "7KmDm".data (by decide) (by decide)⟩
